import Mathlib

/-!
Shallow embedding of the FFmpeg segmentation service (`src/main.py`):
the `POST /split` handler `split_audio` and the `GET /health` handler
`health_check`.

Modelling conventions:
* Bytes are `Nat` values, with the invariant `< 256` carried as a
  hypothesis where it matters (base64 round trips).
* Python `str` values used for ordering/filenames are modelled as
  `List Char` (a Python string is its sequence of code points, and
  Python compares strings lexicographically by code point).
* The filesystem effects of one request are modelled by explicit state:
  the single fixed workspace directory is `Option Workspace` (absent or
  present with its files).
* External nondeterminism (the outcome of the `subprocess.run` calls,
  the order in which `os.listdir` returns entries, whether writing the
  input file raises) is supplied by an `Env` record; the faithfulness
  constraints on it (e.g. that `os.listdir` returns exactly the
  directory's entries, in some order) appear as hypotheses of the
  theorems.
-/

/-! ### Lexicographic order on `List Char` (Python string comparison) -/

/-- Python string `<=`: lexicographic by code point. -/
def lexLe : List Char → List Char → Bool
  | [], _ => true
  | _ :: _, [] => false
  | a :: as, b :: bs =>
    if a.toNat < b.toNat then true
    else if a = b then lexLe as bs
    else false

/-- Python string `<`: strict lexicographic by code point. -/
def lexLt : List Char → List Char → Bool
  | _, [] => false
  | [], _ :: _ => true
  | a :: as, b :: bs =>
    if a.toNat < b.toNat then true
    else if a = b then lexLt as bs
    else false

/-! ### Base64 (`base64.b64encode` / its decoding inverse) -/

/-- The base64 alphabet: sextet value to character. -/
def b64Char (n : Nat) : Char :=
  if n < 26 then Char.ofNat (65 + n)          -- 'A'..'Z'
  else if n < 52 then Char.ofNat (97 + (n - 26)) -- 'a'..'z'
  else if n < 62 then Char.ofNat (48 + (n - 52)) -- '0'..'9'
  else if n = 62 then '+'
  else '/'

/-- Base64 decoding of one character back to its sextet value. -/
def b64Val (c : Char) : Nat :=
  if 65 ≤ c.toNat ∧ c.toNat ≤ 90 then c.toNat - 65
  else if 97 ≤ c.toNat ∧ c.toNat ≤ 122 then c.toNat - 97 + 26
  else if 48 ≤ c.toNat ∧ c.toNat ≤ 57 then c.toNat - 48 + 52
  else if c = '+' then 62
  else 63

/-- Python `base64.b64encode`: bytes to base64 text, processing 3 bytes into
4 characters, with `=` padding for a 1- or 2-byte tail. -/
def b64encode : List Nat → List Char
  | [] => []
  | [a] => [b64Char (a / 4), b64Char (a % 4 * 16), '=', '=']
  | [a, b] => [b64Char (a / 4), b64Char (a % 4 * 16 + b / 16), b64Char (b % 16 * 4), '=']
  | a :: b :: c :: rest =>
    b64Char (a / 4) :: b64Char (a % 4 * 16 + b / 16) ::
      b64Char (b % 16 * 4 + c / 64) :: b64Char (c % 64) :: b64encode rest

/-- Standard base64 decoding (the inverse transport decoding referred to
by the spec): 4 characters back to 3 bytes, with `=` padding handling. -/
def b64decode : List Char → List Nat
  | c1 :: c2 :: c3 :: c4 :: rest =>
    if c4 = '=' then
      if c3 = '=' then [b64Val c1 * 4 + b64Val c2 / 16]
      else [b64Val c1 * 4 + b64Val c2 / 16, b64Val c2 % 16 * 16 + b64Val c3 / 4]
    else
      (b64Val c1 * 4 + b64Val c2 / 16) ::
        (b64Val c2 % 16 * 16 + b64Val c3 / 4) ::
        (b64Val c3 % 4 * 64 + b64Val c4) :: b64decode rest
  | _ => []

/-! ### `os.path.splitext` (posixpath) -/

/-- Index of the last occurrence of `c` in `l` (`str.rfind`): `-1` when
absent, mirroring CPython's `rfind` convention. -/
def rfindChar (c : Char) : List Char → Int
  | [] => -1
  | a :: as =>
    let r := rfindChar c as
    if r ≥ 0 then r + 1 else if a = c then 0 else -1

/-- Python `posixpath.splitext`: split off the extension at the last dot of the
basename, unless the basename up to that dot consists only of dots
(leading dots do not start an extension). -/
def splitext (p : List Char) : List Char × List Char :=
  let sepIndex := rfindChar '/' p
  let dotIndex := rfindChar '.' p
  if dotIndex > sepIndex then
    let base := (p.drop (sepIndex + 1).toNat).take (dotIndex - (sepIndex + 1)).toNat
    if base.all (· = '.') then (p, [])
    else (p.take dotIndex.toNat, p.drop dotIndex.toNat)
  else (p, [])

/-! ### Data model (`ChunkResponse`, `SplitResponse`, errors) -/

structure ChunkResponse where
  index : Nat
  data : List Char      -- base64 text
  fileName : List Char
  size : Nat            -- bytes
  deriving Repr, DecidableEq

structure SplitResponse where
  success : Bool
  totalChunks : Nat
  chunks : List ChunkResponse
  originalSize : Nat
  message : List Char
  deriving Repr, DecidableEq

/-- Raised errors: `fastapi.HTTPException`, as raised by the handler. -/
structure HTTPError where
  status_code : Nat
  detail : List Char
  deriving Repr, DecidableEq

/-! ### Workspace and environment -/

/-- Contents of the fixed workspace directory: filenames with their byte
contents. -/
abbrev Workspace := List (List Char × List Nat)

/-- The fixed workspace path `"/tmp/split_task"` (line 47). It does not
depend on the request: every invocation uses this same path. -/
def temp_dir : List Char := "/tmp/split_task".toList

/-- Lines 48-49: `if os.path.exists(temp_dir): shutil.rmtree(temp_dir)`.
After this step the directory is absent whatever was there before. -/
def rmIfExists : Option Workspace → Option Workspace
  | some _ => none
  | none => none

/-- Line 50: `os.makedirs(temp_dir)` — creates the directory, empty.
(On an existing directory Python would raise `FileExistsError`; the
`some` branch is unreachable after `rmIfExists`.) -/
def makedirs : Option Workspace → Option Workspace
  | none => some []
  | some w => some w

/-- Lines 47-50 as one step: acquire a fresh workspace at the fixed path. -/
def setupWorkspace (fs : Option Workspace) : Option Workspace :=
  makedirs (rmIfExists fs)

/-- Outcome of the `subprocess.run` call for ffmpeg (lines 85-91), as
observed by the handler's `try/except` (lines 84-105). On success the
tool has populated the workspace with `segs.length` segment files whose
byte contents in ordinal order are `segs`. -/
inductive RunOutcome where
  | ok (segs : List (List Nat))
  | timeout
  | calledProcessError (stderr : List Char) (exnText : List Char)
  | fileNotFound
  deriving Repr, DecidableEq

/-- Per-request external nondeterminism. -/
structure Env where
  /-- Whether the workspace directory exists before the request (line 48). -/
  preExisting : Option Workspace
  /-- When `some msg`: writing the input file raises with `str(e) = msg`
  (lines 61-70); `none`: the write succeeds. -/
  saveError : Option (List Char)
  /-- Outcome of the ffmpeg invocation. -/
  run : RunOutcome
  /-- The order in which `os.listdir(temp_dir)` (line 109) returns the
  directory's entry names. Theorems constrain it to be a permutation of
  the actual directory contents. -/
  names : List (List Char)
  /-- Byte contents of the file with the given name in the workspace
  (read at lines 115-116). -/
  dirContent : List Char → List Nat

/-! ### The `/split` handler -/

/-- Lines 53-55: recover the extension from the uploaded filename,
defaulting to `".m4a"` when the filename is `None`/empty or has no
extension. -/
def computeExt (filename : Option (List Char)) : List Char :=
  let original_ext :=
    match filename with
    | none => ".m4a".toList
    | some f => if f = [] then ".m4a".toList else (splitext f).2
  if original_ext = [] then ".m4a".toList else original_ext

/-- Line 57: `input_path = os.path.join(temp_dir, f"input_audio{ext}")`. -/
def input_path (ext : List Char) : List Char :=
  temp_dir ++ "/".toList ++ "input_audio".toList ++ ext

/-- Line 58: `output_pattern = os.path.join(temp_dir, f"out%03d{ext}")`. -/
def output_pattern (ext : List Char) : List Char :=
  temp_dir ++ "/".toList ++ "out%03d".toList ++ ext

/-- The ffmpeg segment timeout in seconds (line 90). -/
def ffmpegTimeoutSeconds : Nat := 300

/-- The segment duration in seconds passed to ffmpeg (line 76). -/
def segmentTimeSeconds : Nat := 600

/-- Lines 73-80: the ffmpeg command line. -/
def ffmpegCmd (ext : List Char) : List (List Char) :=
  ["ffmpeg".toList, "-i".toList, input_path ext,
   "-f".toList, "segment".toList,
   "-segment_time".toList, (toString segmentTimeSeconds).toList,
   "-c".toList, "copy".toList,
   "-y".toList,
   output_pattern ext]

/-- Line 113 loop body (one iteration of
`for idx, filename in enumerate(files)`): read the file, base64-encode
it, record name and byte size. -/
def mkChunk (dirContent : List Char → List Nat) (idx : Nat) (nm : List Char) :
    ChunkResponse :=
  let content := dirContent nm
  { index := idx
    data := b64encode content
    fileName := nm
    size := content.length }

/-- Lines 113-123: `for idx, filename in enumerate(files): ...`. -/
def mkChunks (dirContent : List Char → List Nat) (idx : Nat) :
    List (List Char) → List ChunkResponse
  | [] => []
  | nm :: rest => mkChunk dirContent idx nm :: mkChunks dirContent (idx + 1) rest

/-- The relation Python's `sorted` sorts by on strings. -/
def strLeRel : List Char → List Char → Prop := fun a b => lexLe a b = true

instance : DecidableRel strLeRel := fun a b => by
  unfold strLeRel; infer_instance

/-- Line 109: filter the listing to names starting with `"out"`, then
sort lexicographically. -/
def listSegmentFiles (names : List (List Char)) : List (List Char) :=
  List.insertionSort strLeRel (names.filter (fun f => "out".toList.isPrefixOf f))

/-- The `POST /split` handler (lines 40-135). Returns the response or
the raised `HTTPException`, paired with the final state of the fixed
workspace path (`none` = directory absent). -/
def split_audio (filename : Option (List Char)) (content : List Nat) (env : Env) :
    Except HTTPError SplitResponse × Option Workspace :=
  -- lines 47-50: delete any stale workspace, create a fresh one
  let ws0 := setupWorkspace env.preExisting
  let ext := computeExt filename
  -- lines 61-70: write the input file (may raise FileSaveError)
  match env.saveError with
  | some msg =>
    -- line 70: raise HTTPException; NOTE: no rmtree on this path
    (.error ⟨500, "File save error: ".toList ++ msg⟩, ws0)
  | none =>
    let _ws1 := some (("input_audio".toList ++ ext, content) :: [])
    -- lines 84-105: run ffmpeg
    match env.run with
    | .timeout =>
      -- lines 93-96
      (.error ⟨500, "FFmpeg timeout - file may be too large".toList⟩, none)
    | .calledProcessError stderr exnText =>
      -- lines 97-101: error_msg = e.stderr.decode() if e.stderr else str(e)
      let error_msg := if stderr = [] then exnText else stderr
      (.error ⟨500, "FFmpeg error: ".toList ++ error_msg⟩, none)
    | .fileNotFound =>
      -- lines 102-105
      (.error ⟨500, "FFmpeg not installed on server".toList⟩, none)
    | .ok _ =>
      -- lines 108-123
      let files := listSegmentFiles env.names
      let chunks := mkChunks env.dirContent 0 files
      -- line 127: shutil.rmtree(temp_dir)
      -- lines 129-135
      (.ok { success := true
             totalChunks := chunks.length
             chunks := chunks
             originalSize := content.length
             message := "成功切割成 ".toList ++ (toString chunks.length).toList
               ++ " 段".toList },
       none)

/-- The segment filename ffmpeg generates for ordinal `i`
(`out%03d{ext}`): `%03d` zero-pads to width 3, printing more digits only
when `i ≥ 1000`. -/
def pad3 (n : Nat) : List Char :=
  if n < 1000 then
    [Nat.digitChar (n / 100), Nat.digitChar (n % 100 / 10), Nat.digitChar (n % 10)]
  else
    Nat.toDigits 10 n

def segName (i : Nat) (ext : List Char) : List Char :=
  "out".toList ++ pad3 i ++ ext

/-- The name of the input file inside the workspace. -/
def inputName (ext : List Char) : List Char :=
  "input_audio".toList ++ ext

/-- The names the workspace holds after a successful ffmpeg run that
produced `n` segments: the input file plus the `n` segment files. -/
def canonicalNames (ext : List Char) (n : Nat) : List (List Char) :=
  inputName ext :: (List.range n).map (fun i => segName i ext)

/-! ### The `/health` handler -/

/-- Outcome of the `try` block of `health_check` (lines 151-158) as
driven by the external process: either `subprocess.run` completed (with
a return code and decoded stdout) or some exception was raised
(`FileNotFoundError`, `TimeoutExpired`, decode failure, ...), with
`str(e) = exnText`. -/
inductive HealthRunOutcome where
  | completed (returncode : Int) (stdout : List Char)
  | raised (exnText : List Char)
  deriving Repr, DecidableEq

structure HealthStatus where
  status : List Char
  ffmpeg : List Char
  ffmpeg_version : List Char
  deriving Repr, DecidableEq

/-- Line 158: `result.stdout.decode().split('\n')[0]`. -/
def firstLine (s : List Char) : List Char :=
  s.takeWhile (· ≠ '\n')

/-- The `GET /health` handler (lines 148-167). -/
def health_check (o : HealthRunOutcome) : HealthStatus :=
  match o with
  | .completed rc stdout =>
    let ffmpeg_ok := rc = 0
    let ffmpeg_version := if ffmpeg_ok then firstLine stdout else "N/A".toList
    { status := if ffmpeg_ok then "healthy".toList else "unhealthy".toList
      ffmpeg := if ffmpeg_ok then "available".toList else "not available".toList
      ffmpeg_version := ffmpeg_version }
  | .raised e =>
    { status := "unhealthy".toList
      ffmpeg := "not available".toList
      ffmpeg_version := e }

/-- The handler `health_check` with the workspace state threaded through: the
handler's body (lines 148-167) performs no filesystem operation, so the
state passes through untouched. -/
def health_checkFS (fs : Option Workspace) (o : HealthRunOutcome) :
    HealthStatus × Option Workspace :=
  (health_check o, fs)

/-! ### Properties of the string order -/

theorem char_eq_of_toNat_eq {a b : Char} (h : a.toNat = b.toNat) : a = b :=
  Char.ext (UInt32.ext h)

theorem lexLe_nil_left (b : List Char) : lexLe [] b = true := by
  cases b <;> rfl

theorem lexLe_cons_iff {x y : Char} {xs ys : List Char} :
    lexLe (x :: xs) (y :: ys) = true ↔
      x.toNat < y.toNat ∨ (x = y ∧ lexLe xs ys = true) := by
  simp only [lexLe]
  split_ifs with h1 h2
  · simp [h1]
  · simp [h1, h2]
  · simp [h1, h2]

theorem lexLt_cons_iff {x y : Char} {xs ys : List Char} :
    lexLt (x :: xs) (y :: ys) = true ↔
      x.toNat < y.toNat ∨ (x = y ∧ lexLt xs ys = true) := by
  simp only [lexLt]
  split_ifs with h1 h2
  · simp [h1]
  · simp [h1, h2]
  · simp [h1, h2]

theorem lexLe_total : ∀ a b : List Char, lexLe a b = true ∨ lexLe b a = true
  | [], b => .inl (lexLe_nil_left b)
  | _ :: _, [] => .inr (lexLe_nil_left _)
  | x :: xs, y :: ys => by
    rcases Nat.lt_trichotomy x.toNat y.toNat with h | h | h
    · exact .inl (lexLe_cons_iff.mpr (.inl h))
    · have hxy : x = y := char_eq_of_toNat_eq h
      rcases lexLe_total xs ys with h' | h'
      · exact .inl (lexLe_cons_iff.mpr (.inr ⟨hxy, h'⟩))
      · exact .inr (lexLe_cons_iff.mpr (.inr ⟨hxy.symm, h'⟩))
    · exact .inr (lexLe_cons_iff.mpr (.inl h))

theorem lexLe_trans :
    ∀ a b c : List Char, lexLe a b = true → lexLe b c = true → lexLe a c = true
  | [], _, c, _, _ => lexLe_nil_left c
  | _ :: _, [], _, hab, _ => by simp [lexLe] at hab
  | _ :: _, _ :: _, [], _, hbc => by simp [lexLe] at hbc
  | x :: xs, y :: ys, z :: zs, hab, hbc => by
    rcases lexLe_cons_iff.mp hab with h1 | ⟨rfl, h1⟩
    · rcases lexLe_cons_iff.mp hbc with h2 | ⟨rfl, h2⟩
      · exact lexLe_cons_iff.mpr (.inl (Nat.lt_trans h1 h2))
      · exact lexLe_cons_iff.mpr (.inl h1)
    · rcases lexLe_cons_iff.mp hbc with h2 | ⟨rfl, h2⟩
      · exact lexLe_cons_iff.mpr (.inl h2)
      · exact lexLe_cons_iff.mpr (.inr ⟨rfl, lexLe_trans xs ys zs h1 h2⟩)

theorem lexLe_antisymm :
    ∀ a b : List Char, lexLe a b = true → lexLe b a = true → a = b
  | [], [], _, _ => rfl
  | [], _ :: _, _, hba => by simp [lexLe] at hba
  | _ :: _, [], hab, _ => by simp [lexLe] at hab
  | x :: xs, y :: ys, hab, hba => by
    rcases lexLe_cons_iff.mp hab with h1 | ⟨rfl, h1⟩
    · rcases lexLe_cons_iff.mp hba with h2 | ⟨h2, _⟩
      · omega
      · rw [h2] at h1; omega
    · rcases lexLe_cons_iff.mp hba with h2 | ⟨-, h2⟩
      · omega
      · rw [lexLe_antisymm xs ys h1 h2]

theorem lexLe_of_lexLt : ∀ {a b : List Char}, lexLt a b = true → lexLe a b = true
  | [], b, _ => lexLe_nil_left b
  | _ :: _, [], h => by simp [lexLt] at h
  | _ :: _, _ :: _, h => by
    rcases lexLt_cons_iff.mp h with h1 | ⟨rfl, h1⟩
    · exact lexLe_cons_iff.mpr (.inl h1)
    · exact lexLe_cons_iff.mpr (.inr ⟨rfl, lexLe_of_lexLt h1⟩)

theorem lexLt_cons_self {c : Char} {as bs : List Char} :
    lexLt (c :: as) (c :: bs) = lexLt as bs := by
  simp [lexLt]

theorem lexLt_cons_of_lt {x y : Char} {xs ys : List Char} (h : x.toNat < y.toNat) :
    lexLt (x :: xs) (y :: ys) = true := by
  simp [lexLt, h]

/-! ### Base64 round trip -/

theorem b64Val_b64Char : ∀ n < 64, b64Val (b64Char n) = n := by decide

theorem b64Char_ne_pad : ∀ n < 64, b64Char n ≠ '=' := by decide

theorem b64_roundtrip :
    ∀ l : List Nat, (∀ x ∈ l, x < 256) → b64decode (b64encode l) = l
  | [], _ => rfl
  | [a], h => by
    have ha : a < 256 := h a (by simp)
    have h1 : b64Val (b64Char (a / 4)) = a / 4 := b64Val_b64Char _ (by omega)
    have h2 : b64Val (b64Char (a % 4 * 16)) = a % 4 * 16 := b64Val_b64Char _ (by omega)
    simp [b64encode, b64decode, h1, h2]
    omega
  | [a, b], h => by
    have ha : a < 256 := h a (by simp)
    have hb : b < 256 := h b (by simp)
    have h1 : b64Val (b64Char (a / 4)) = a / 4 := b64Val_b64Char _ (by omega)
    have h2 : b64Val (b64Char (a % 4 * 16 + b / 16)) = a % 4 * 16 + b / 16 :=
      b64Val_b64Char _ (by omega)
    have h3 : b64Val (b64Char (b % 16 * 4)) = b % 16 * 4 := b64Val_b64Char _ (by omega)
    have hne : b64Char (b % 16 * 4) ≠ '=' := b64Char_ne_pad _ (by omega)
    simp [b64encode, b64decode, hne, h1, h2, h3]
    omega
  | a :: b :: c :: rest, h => by
    have ha : a < 256 := h a (by simp)
    have hb : b < 256 := h b (by simp)
    have hc : c < 256 := h c (by simp)
    have ih := b64_roundtrip rest (fun x hx => h x (by simp [hx]))
    have h1 : b64Val (b64Char (a / 4)) = a / 4 := b64Val_b64Char _ (by omega)
    have h2 : b64Val (b64Char (a % 4 * 16 + b / 16)) = a % 4 * 16 + b / 16 :=
      b64Val_b64Char _ (by omega)
    have h3 : b64Val (b64Char (b % 16 * 4 + c / 64)) = b % 16 * 4 + c / 64 :=
      b64Val_b64Char _ (by omega)
    have h4 : b64Val (b64Char (c % 64)) = c % 64 := b64Val_b64Char _ (by omega)
    have hne : b64Char (c % 64) ≠ '=' := b64Char_ne_pad _ (by omega)
    simp [b64encode, b64decode, hne, h1, h2, h3, h4, ih]
    omega

/-! ### Ordering of the generated segment filenames -/

theorem digitChar_toNat_lt :
    ∀ d < 10, ∀ e < 10, d < e → (Nat.digitChar d).toNat < (Nat.digitChar e).toNat := by
  decide

/-- For `i < j < 1000` the zero-padded names are strictly increasing
lexicographically (the 3-digit pad makes sort order equal segment order). -/
theorem lexLt_segName (ext : List Char) {i j : Nat} (hij : i < j) (hj : j < 1000) :
    lexLt (segName i ext) (segName j ext) = true := by
  have hi : i < 1000 := Nat.lt_trans hij hj
  have houtl : ("out".toList : List Char) = ['o', 'u', 't'] := rfl
  simp only [segName, pad3, if_pos hi, if_pos hj, houtl]
  simp only [List.cons_append, List.nil_append]
  rw [lexLt_cons_self, lexLt_cons_self, lexLt_cons_self]
  rcases Nat.lt_trichotomy (i / 100) (j / 100) with h1 | h1 | h1
  · exact lexLt_cons_of_lt (digitChar_toNat_lt _ (by omega) _ (by omega) h1)
  · rw [h1, lexLt_cons_self]
    rcases Nat.lt_trichotomy (i % 100 / 10) (j % 100 / 10) with h2 | h2 | h2
    · exact lexLt_cons_of_lt (digitChar_toNat_lt _ (by omega) _ (by omega) h2)
    · rw [h2, lexLt_cons_self]
      have h3 : i % 10 < j % 10 := by omega
      exact lexLt_cons_of_lt (digitChar_toNat_lt _ (by omega) _ (by omega) h3)
    · omega
  · omega

theorem pairwise_lexLt_segNames (ext : List Char) {n : Nat} (hn : n ≤ 1000) :
    List.Pairwise (fun a b => lexLt a b = true)
      ((List.range n).map (fun i => segName i ext)) := by
  rw [List.pairwise_map]
  refine (List.pairwise_lt_range n).imp_of_mem ?_
  intro a b _ hb hab
  exact lexLt_segName ext hab (Nat.lt_of_lt_of_le (List.mem_range.mp hb) hn)

theorem sorted_segNames (ext : List Char) {n : Nat} (hn : n ≤ 1000) :
    List.Sorted strLeRel ((List.range n).map (fun i => segName i ext)) :=
  (pairwise_lexLt_segNames ext hn).imp (fun h => lexLe_of_lexLt h)

/-! ### The listing step (line 109) -/

theorem outCheck_inputName (ext : List Char) :
    ("out".toList.isPrefixOf (inputName ext)) = false := rfl

theorem outCheck_segName (i : Nat) (ext : List Char) :
    ("out".toList.isPrefixOf (segName i ext)) = true := by
  simp [segName, List.isPrefixOf]

theorem filter_canonicalNames (ext : List Char) (n : Nat) :
    (canonicalNames ext n).filter (fun f => "out".toList.isPrefixOf f) =
      (List.range n).map (fun i => segName i ext) := by
  rw [canonicalNames, List.filter_cons_of_neg (by rw [outCheck_inputName]; simp)]
  apply List.filter_eq_self.mpr
  intro a ha
  obtain ⟨i, _, rfl⟩ := List.mem_map.mp ha
  exact outCheck_segName i ext

/-- The sorted, filtered listing of a (permuted) post-run workspace is
exactly the segment names in ordinal order, provided at most 1000
segments were produced. -/
theorem listSegmentFiles_eq (ext : List Char) {n : Nat} (hn : n ≤ 1000)
    {names : List (List Char)} (hperm : names.Perm (canonicalNames ext n)) :
    listSegmentFiles names = (List.range n).map (fun i => segName i ext) := by
  haveI : IsTotal (List Char) strLeRel := ⟨lexLe_total⟩
  haveI : IsTrans (List Char) strLeRel := ⟨lexLe_trans⟩
  haveI : IsAntisymm (List Char) strLeRel := ⟨lexLe_antisymm⟩
  refine List.eq_of_perm_of_sorted ?_
    (List.sorted_insertionSort strLeRel _) (sorted_segNames ext hn)
  have p1 := List.perm_insertionSort strLeRel
    (names.filter (fun f => "out".toList.isPrefixOf f))
  have p2 := hperm.filter (fun f => "out".toList.isPrefixOf f)
  have p3 : ((canonicalNames ext n).filter (fun f => "out".toList.isPrefixOf f)).Perm
      ((List.range n).map (fun i => segName i ext)) := by
    rw [filter_canonicalNames ext n]
  exact (p1.trans p2).trans p3

theorem listSegmentFiles_length {n : Nat} (ext : List Char)
    {names : List (List Char)} (hperm : names.Perm (canonicalNames ext n)) :
    (listSegmentFiles names).length = n := by
  unfold listSegmentFiles
  rw [(List.perm_insertionSort strLeRel _).length_eq,
    (hperm.filter _).length_eq, filter_canonicalNames ext n,
    List.length_map, List.length_range]

/-! ### The chunk-building loop (lines 113-123) -/

theorem mkChunks_length (d : List Char → List Nat) :
    ∀ (idx : Nat) (names : List (List Char)),
      (mkChunks d idx names).length = names.length
  | _, [] => rfl
  | idx, _ :: rest => by
    simp [mkChunks, mkChunks_length d (idx + 1) rest]

theorem mkChunks_get (d : List Char → List Nat) :
    ∀ (idx : Nat) (names : List (List Char)) (i : Nat)
      (h : i < (mkChunks d idx names).length),
      (mkChunks d idx names).get ⟨i, h⟩ =
        mkChunk d (idx + i)
          (names.get ⟨i, by rw [← mkChunks_length d idx names]; exact h⟩)
  | idx, nm :: rest, 0, h => by simp [mkChunks]
  | idx, nm :: rest, i + 1, h => by
    have ih := mkChunks_get d (idx + 1) rest i (by
      simpa [mkChunks] using h)
    simp only [mkChunks, List.get_cons_succ]
    rw [ih]
    congr 1
    omega

/-! ### Path behavior of the handler -/

theorem split_audio_ok (filename : Option (List Char)) (content : List Nat)
    (env : Env) (segs : List (List Nat))
    (hsave : env.saveError = none) (hrun : env.run = RunOutcome.ok segs) :
    split_audio filename content env =
      (.ok { success := true
             totalChunks := (mkChunks env.dirContent 0 (listSegmentFiles env.names)).length
             chunks := mkChunks env.dirContent 0 (listSegmentFiles env.names)
             originalSize := content.length
             message := "成功切割成 ".toList ++
               (toString (mkChunks env.dirContent 0 (listSegmentFiles env.names)).length).toList ++
               " 段".toList }, none) := by
  simp [split_audio, hsave, hrun]

/-- The enumerate loop over the (ordinally listed) segment names produces
exactly one chunk per ordinal, indexed by its ordinal. -/
theorem mkChunks_map_range' (d : List Char → List Nat) (g : Nat → List Char) :
    ∀ (s n : Nat), mkChunks d s ((List.range' s n).map g) =
      (List.range' s n).map (fun i => mkChunk d i (g i))
  | _, 0 => rfl
  | s, n + 1 => by
    rw [List.range'_succ s n 1]
    simp only [List.map_cons, mkChunks]
    rw [mkChunks_map_range' d g (s + 1) n]

theorem mkChunks_map_range (d : List Char → List Nat) (g : Nat → List Char) (n : Nat) :
    mkChunks d 0 ((List.range n).map g) =
      (List.range n).map (fun i => mkChunk d i (g i)) := by
  rw [List.range_eq_range' n]
  exact mkChunks_map_range' d g 0 n

/-! ### Claim theorems -/

/-- C1 counterexample: when writing the uploaded content to the input
file fails (FileSaveError, lines 68-70), the handler raises without
deleting the workspace — at this concrete input the operation fails and
the workspace directory is still present afterward, refuting the claim
that every exit path deletes it. -/
theorem C1_counterexample :
    split_audio (some "a.m4a".toList) [1, 2, 3]
        ⟨none, some "disk full".toList, RunOutcome.timeout, [], fun _ => []⟩ =
      (.error ⟨500, "File save error: disk full".toList⟩, some []) ∧
    (split_audio (some "a.m4a".toList) [1, 2, 3]
        ⟨none, some "disk full".toList, RunOutcome.timeout, [], fun _ => []⟩).2 ≠
      none := by
  refine ⟨rfl, ?_⟩
  intro h
  simp [split_audio, setupWorkspace, rmIfExists, makedirs] at h

/-- C1 (amended): once the workspace has been created, it is deleted
before returning on the success, timeout, nonzero-exit and
tool-not-found exit paths, but NOT on the FileSaveError path: there the
handler raises with the workspace still on disk. -/
theorem C1_cleanup_paths (filename : Option (List Char)) (content : List Nat)
    (env : Env) :
    (env.saveError = none → (split_audio filename content env).2 = none) ∧
    (∀ msg, env.saveError = some msg →
      (split_audio filename content env).1 =
          .error ⟨500, "File save error: ".toList ++ msg⟩ ∧
        (split_audio filename content env).2 ≠ none) := by
  constructor
  · intro h
    cases hr : env.run <;> simp [split_audio, h, hr]
  · intro msg h
    cases hp : env.preExisting <;>
      simp [split_audio, h, hp, setupWorkspace, rmIfExists, makedirs]

/-- C1 witness: on a concrete run whose write succeeds, the workspace is
deleted before returning. -/
theorem C1_cleanup_paths_witness :
    (split_audio (some "a.m4a".toList) [1]
        ⟨none, none, RunOutcome.timeout, [], fun _ => []⟩).2 = none :=
  (C1_cleanup_paths (some "a.m4a".toList) [1]
    ⟨none, none, RunOutcome.timeout, [], fun _ => []⟩).1 rfl

/-- C4: if the ffmpeg invocation exceeds the bounded wait (whose
configured value is 300 seconds, line 90), `split_audio` fails with the
timeout server error (HTTP 500, no partial result) and the workspace
directory is absent afterward. -/
theorem C4_timeout (filename : Option (List Char)) (content : List Nat)
    (env : Env) (hsave : env.saveError = none)
    (hrun : env.run = RunOutcome.timeout) :
    split_audio filename content env =
        (.error ⟨500, "FFmpeg timeout - file may be too large".toList⟩, none) ∧
      ffmpegTimeoutSeconds = 300 :=
  ⟨by simp [split_audio, hsave, hrun], rfl⟩

/-- C4 witness: a concrete timing-out run. -/
theorem C4_timeout_witness :
    split_audio none [1]
        ⟨none, none, RunOutcome.timeout, [], fun _ => []⟩ =
      (.error ⟨500, "FFmpeg timeout - file may be too large".toList⟩, none) ∧
    ffmpegTimeoutSeconds = 300 :=
  C4_timeout none [1] ⟨none, none, RunOutcome.timeout, [], fun _ => []⟩ rfl rfl

/-- C5: if ffmpeg exits nonzero, `split_audio` fails with a 500 carrying
the tool's stderr diagnostic (falling back to the exception text when
stderr is empty) and the workspace is deleted; if the ffmpeg binary is
not found, it fails with the "not installed" 500 and the workspace is
absent afterward. -/
theorem C5_tool_failures (filename : Option (List Char)) (content : List Nat)
    (env : Env) (hsave : env.saveError = none) :
    (∀ stderr exnText,
      env.run = RunOutcome.calledProcessError stderr exnText →
      split_audio filename content env =
        (.error ⟨500, "FFmpeg error: ".toList ++
          (if stderr = [] then exnText else stderr)⟩, none)) ∧
    (env.run = RunOutcome.fileNotFound →
      split_audio filename content env =
        (.error ⟨500, "FFmpeg not installed on server".toList⟩, none)) := by
  constructor
  · intro stderr exnText h
    simp [split_audio, hsave, h]
  · intro h
    simp [split_audio, hsave, h]

/-- C5 witness: a concrete nonzero-exit run with nonempty stderr. -/
theorem C5_tool_failures_witness :
    split_audio none [1]
        ⟨none, none,
          RunOutcome.calledProcessError "bad stream".toList "exn".toList,
          [], fun _ => []⟩ =
      (.error ⟨500, "FFmpeg error: bad stream".toList⟩, none) := by
  have h := (C5_tool_failures none [1]
      ⟨none, none,
        RunOutcome.calledProcessError "bad stream".toList "exn".toList,
        [], fun _ => []⟩ rfl).1
      "bad stream".toList "exn".toList rfl
  simpa using h

/-- C7: the workspace lives at the single fixed path `/tmp/split_task`
(not a per-request unique path); at the start of every invocation any
pre-existing directory there is deleted recursively and a fresh empty
one is created, so at most one workspace ever exists at that location. -/
theorem C7_workspace_reset (fs : Option Workspace) :
    rmIfExists fs = none ∧ setupWorkspace fs = some [] ∧
      temp_dir = "/tmp/split_task".toList := by
  cases fs <;> exact ⟨rfl, rfl, rfl⟩

/-- C2: on a successful split whose listing is a permutation of the
post-run workspace contents and that produced at most 1000 segment
files, `chunks[i].index = i` for all `i`, the chunks appear in strictly
increasing index order matching the strict lexicographic order of their
filenames, and those filenames coincide with the tool's zero-padded
ordinal order (`chunks[i].fileName = out%03d⟨i⟩ext`). -/
theorem C2_chunk_order (filename : Option (List Char)) (content : List Nat)
    (env : Env) (segs : List (List Nat))
    (hsave : env.saveError = none) (hrun : env.run = RunOutcome.ok segs)
    (hn : segs.length ≤ 1000)
    (hperm : env.names.Perm (canonicalNames (computeExt filename) segs.length)) :
    ∃ r, (split_audio filename content env).1 = .ok r ∧
      (∀ i (h : i < r.chunks.length),
        (r.chunks.get ⟨i, h⟩).index = i ∧
        (r.chunks.get ⟨i, h⟩).fileName = segName i (computeExt filename)) ∧
      List.Pairwise (fun a b => lexLt a.fileName b.fileName = true) r.chunks ∧
      List.Pairwise (fun a b => a.index < b.index) r.chunks := by
  have hfiles := listSegmentFiles_eq (computeExt filename) hn hperm
  obtain ⟨r, hr1, hr2⟩ : ∃ r, (split_audio filename content env).1 = .ok r ∧
      r.chunks = mkChunks env.dirContent 0 (listSegmentFiles env.names) := by
    rw [split_audio_ok filename content env segs hsave hrun]
    exact ⟨_, rfl, rfl⟩
  have hchunks : r.chunks = (List.range segs.length).map
      (fun i => mkChunk env.dirContent i (segName i (computeExt filename))) := by
    rw [hr2, hfiles, mkChunks_map_range]
  refine ⟨r, hr1, ?_, ?_, ?_⟩
  · intro i h
    have hi : i < segs.length := by
      rw [hchunks] at h
      simpa using h
    rw [List.get_of_eq hchunks ⟨i, h⟩]
    simp [List.get_eq_getElem, mkChunk]
  · rw [hchunks, List.pairwise_map]
    have hp := pairwise_lexLt_segNames (computeExt filename) hn
    rw [List.pairwise_map] at hp
    refine hp.imp ?_
    intro a b hab
    simpa [mkChunk] using hab
  · rw [hchunks, List.pairwise_map]
    refine (List.pairwise_lt_range segs.length).imp ?_
    intro a b hab
    simpa [mkChunk] using hab

/-- C2 witness: a concrete two-segment success. -/
theorem C2_chunk_order_witness :
    ∃ r, (split_audio none [1, 2]
        ⟨none, none, RunOutcome.ok [[10], [20]],
          canonicalNames (computeExt none) 2, fun _ => [7]⟩).1 = .ok r ∧
      (∀ i (h : i < r.chunks.length),
        (r.chunks.get ⟨i, h⟩).index = i ∧
        (r.chunks.get ⟨i, h⟩).fileName = segName i (computeExt none)) ∧
      List.Pairwise (fun a b => lexLt a.fileName b.fileName = true) r.chunks ∧
      List.Pairwise (fun a b => a.index < b.index) r.chunks :=
  C2_chunk_order none [1, 2]
    ⟨none, none, RunOutcome.ok [[10], [20]],
      canonicalNames (computeExt none) 2, fun _ => [7]⟩
    [[10], [20]] rfl rfl (by decide) (List.Perm.refl _)

/-- C3: every chunk of a successful split carries base64 text that
decodes back to exactly the bytes of the workspace file it was read
from, and its `size` equals the byte length of those bytes. -/
theorem C3_base64_roundtrip (filename : Option (List Char)) (content : List Nat)
    (env : Env) (segs : List (List Nat))
    (hsave : env.saveError = none) (hrun : env.run = RunOutcome.ok segs)
    (hbytes : ∀ nm x, x ∈ env.dirContent nm → x < 256) :
    ∃ r, (split_audio filename content env).1 = .ok r ∧
      ∀ i (h : i < r.chunks.length),
        b64decode ((r.chunks.get ⟨i, h⟩).data) =
            env.dirContent ((r.chunks.get ⟨i, h⟩).fileName) ∧
          (r.chunks.get ⟨i, h⟩).size =
            (env.dirContent ((r.chunks.get ⟨i, h⟩).fileName)).length := by
  obtain ⟨r, hr1, hr2⟩ : ∃ r, (split_audio filename content env).1 = .ok r ∧
      r.chunks = mkChunks env.dirContent 0 (listSegmentFiles env.names) := by
    rw [split_audio_ok filename content env segs hsave hrun]
    exact ⟨_, rfl, rfl⟩
  refine ⟨r, hr1, ?_⟩
  intro i h
  have h' : i < (mkChunks env.dirContent 0 (listSegmentFiles env.names)).length := by
    rw [← hr2]; exact h
  rw [List.get_of_eq hr2 ⟨i, h⟩]
  rw [mkChunks_get env.dirContent 0 (listSegmentFiles env.names) i h']
  refine ⟨b64_roundtrip _ (fun x hx => hbytes _ x hx), rfl⟩

/-- C3 witness: a concrete one-segment success with one-byte content. -/
theorem C3_base64_roundtrip_witness :
    ∃ r, (split_audio none [9]
        ⟨none, none, RunOutcome.ok [[10]],
          canonicalNames (computeExt none) 1, fun _ => [7]⟩).1 = .ok r ∧
      ∀ i (h : i < r.chunks.length),
        b64decode ((r.chunks.get ⟨i, h⟩).data) =
            (fun _ => [7]) ((r.chunks.get ⟨i, h⟩).fileName) ∧
          (r.chunks.get ⟨i, h⟩).size =
            ((fun _ => [7]) ((r.chunks.get ⟨i, h⟩).fileName) : List Nat).length :=
  C3_base64_roundtrip none [9]
    ⟨none, none, RunOutcome.ok [[10]],
      canonicalNames (computeExt none) 1, fun _ => [7]⟩
    [[10]] rfl rfl (by intro nm x hx; simp at hx; omega)

/-- C6: every successful split returns `success = true`, `totalChunks`
equal to the number of output segment files matched in the workspace
(equivalently `chunks.length`), `originalSize` equal to the byte length
of the uploaded content, and the message stating the number of segments
it was split into. -/
theorem C6_success_result (filename : Option (List Char)) (content : List Nat)
    (env : Env) (segs : List (List Nat))
    (hsave : env.saveError = none) (hrun : env.run = RunOutcome.ok segs)
    (hperm : env.names.Perm (canonicalNames (computeExt filename) segs.length)) :
    ∃ r, (split_audio filename content env).1 = .ok r ∧
      r.success = true ∧
      r.totalChunks = r.chunks.length ∧
      r.totalChunks = segs.length ∧
      r.originalSize = content.length ∧
      r.message = "成功切割成 ".toList ++ (toString segs.length).toList ++
        " 段".toList := by
  have hlen : (mkChunks env.dirContent 0 (listSegmentFiles env.names)).length =
      segs.length := by
    rw [mkChunks_length, listSegmentFiles_length (computeExt filename) hperm]
  rw [split_audio_ok filename content env segs hsave hrun]
  exact ⟨_, rfl, rfl, rfl, hlen, rfl, by simp only [hlen]⟩

/-- C6 witness: a concrete two-segment success. -/
theorem C6_success_result_witness :
    ∃ r, (split_audio none [1, 2, 3]
        ⟨none, none, RunOutcome.ok [[10], [20]],
          canonicalNames (computeExt none) 2, fun _ => [7]⟩).1 = .ok r ∧
      r.success = true ∧
      r.totalChunks = r.chunks.length ∧
      r.totalChunks = ([[10], [20]] : List (List Nat)).length ∧
      r.originalSize = ([1, 2, 3] : List Nat).length ∧
      r.message = "成功切割成 ".toList ++
        (toString ([[10], [20]] : List (List Nat)).length).toList ++ " 段".toList :=
  C6_success_result none [1, 2, 3]
    ⟨none, none, RunOutcome.ok [[10], [20]],
      canonicalNames (computeExt none) 2, fun _ => [7]⟩
    [[10], [20]] rfl rfl (List.Perm.refl _)

/-- C8: when the uploaded filename is absent, empty, or has no
extension, the recovered extension defaults to `.m4a`; otherwise the
upload's own extension is used. The recovered extension is the one used
in both the input filename written to the workspace and the output
pattern passed to ffmpeg, and segmentation proceeds normally. -/
theorem C8_default_extension (filename : Option (List Char)) :
    ((filename = none ∨ filename = some [] ∨
        (∃ f, filename = some f ∧ (splitext f).2 = [])) →
      computeExt filename = ".m4a".toList) ∧
    (∀ f, filename = some f → f ≠ [] → (splitext f).2 ≠ [] →
      computeExt filename = (splitext f).2) ∧
    input_path (computeExt filename) =
      "/tmp/split_task/input_audio".toList ++ computeExt filename ∧
    output_pattern (computeExt filename) =
      "/tmp/split_task/out%03d".toList ++ computeExt filename ∧
    input_path (computeExt filename) ∈ ffmpegCmd (computeExt filename) ∧
    output_pattern (computeExt filename) ∈ ffmpegCmd (computeExt filename) ∧
    (∀ (content : List Nat) (env : Env) segs,
      env.saveError = none → env.run = RunOutcome.ok segs →
      ∃ r, (split_audio filename content env).1 = .ok r ∧ r.success = true) := by
  refine ⟨?_, ?_, rfl, rfl, ?_, ?_, ?_⟩
  · rintro (rfl | rfl | ⟨f, rfl, hsplit⟩)
    · rfl
    · rfl
    · by_cases hf : f = [] <;> simp [computeExt, hf, hsplit]
  · rintro f rfl hf hsplit
    simp [computeExt, hf, hsplit]
  · simp [ffmpegCmd]
  · simp [ffmpegCmd]
  · intro content env segs hsave hrun
    rw [split_audio_ok filename content env segs hsave hrun]
    exact ⟨_, rfl, rfl⟩

/-- C8 witness: a concrete extension-less filename. -/
theorem C8_default_extension_witness :
    computeExt (some "noext".toList) = ".m4a".toList :=
  (C8_default_extension (some "noext".toList)).1
    (.inr (.inr ⟨"noext".toList, rfl, rfl⟩))

/-- C9: a health check whose version query raises (in particular when
the ffmpeg binary is absent) reports status `unhealthy` and ffmpeg
`not available`; one whose version query completes with exit code 0
reports `healthy`, `available`, and the first line of the version
output; and the handler never touches the workspace. -/
theorem C9_health_check (o : HealthRunOutcome) (fs : Option Workspace) :
    (∀ e, o = .raised e →
      (health_check o).status = "unhealthy".toList ∧
        (health_check o).ffmpeg = "not available".toList) ∧
    (∀ stdout, o = .completed 0 stdout →
      health_check o =
        ⟨"healthy".toList, "available".toList, firstLine stdout⟩) ∧
    (health_checkFS fs o).2 = fs := by
  refine ⟨?_, ?_, rfl⟩
  · rintro e rfl
    exact ⟨rfl, rfl⟩
  · rintro stdout rfl
    simp [health_check]

/-- C9 witness: concrete raised and completed outcomes. -/
theorem C9_health_check_witness :
    (health_check (.raised "No such file".toList)).status =
        "unhealthy".toList ∧
      (health_check (.raised "No such file".toList)).ffmpeg =
        "not available".toList :=
  (C9_health_check (.raised "No such file".toList) none).1
    "No such file".toList rfl

/-- C10: the health handler is total at its boundary: every exception
from the version query is caught and mapped to `unhealthy` /
`not available` with the exception text as the reported version, and
every execution produces a response whose status is `healthy` or
`unhealthy`. -/
theorem C10_health_total (o : HealthRunOutcome) :
    (∀ e, health_check (.raised e) =
      ⟨"unhealthy".toList, "not available".toList, e⟩) ∧
    ((health_check o).status = "healthy".toList ∨
      (health_check o).status = "unhealthy".toList) := by
  refine ⟨fun e => rfl, ?_⟩
  cases o with
  | completed rc stdout =>
    by_cases h : rc = 0 <;> simp [health_check, h]
  | raised e => exact .inr rfl
